/-
Verification of the TripTracker trip/stop ordering core.

This file shallowly embeds the trip-detail stop sequencing logic
(moveStop, handleDelete, addStop), the persistence layer
(reorderStops, deleteStop, saveStop and their tenant scoping), and
the derived-field calculators (getComputedMileage, the isLate
computation of dbStopToUIStop, the expense net/GST/total
reconciliation effect) and proves / refutes the specified properties.

Conventions of the embedding:
 - machine numbers are modelled as Rat (JS numbers on the in-range,
   non-NaN inputs the claims concern);
 - nullable values are Option;
 - a JS string field that is tested for truthiness is modelled as an
   Option (none = null or empty string);
 - remote tables are modelled as lists of rows; each remote call is
   either reflected directly in the row list or recorded as a
   RemoteQuery value describing the filters it carries.
-/
import Mathlib

namespace TripTracker

/-- Stop types, matching the StopType union of the persistence layer:
"empty_start" | "pickup" | "stop" | "terminal" | "delivery" | "reposition". -/
inductive StopType where
  | empty_start
  | pickup
  | stop
  | terminal
  | delivery
  | reposition
deriving DecidableEq, Repr

/-- The UI stop record (UIStop), restricted to the fields the verified
logic reads.  `odometer` holds the parsed numeric value of the odometer
string (parseOdometer result; none when the string is empty or
non-numeric), `mileageToNext` the static per-stop mileage value. -/
structure UIStop where
  id : String
  type : StopType
  isCompleted : Bool
  odometer : Option Rat
  mileageToNext : Option Rat
deriving DecidableEq, Repr

/-- Direction argument of moveStop: "up" | "down". -/
inductive Dir where
  | up
  | down
deriving DecidableEq, Repr

/-- The guarded part of moveStop: returns the swapped list when the move
is allowed, none when any of the early-return guards fires.
In the source, targetIndex = index - 1 (up) or index + 1 (down) as a JS
number; the first guard is targetIndex < 0 or targetIndex >= length.
The match below is the same case split without signed arithmetic:
for up, targetIndex < 0 iff index = 0.  (An out-of-range `index` with an
in-range target makes the source throw on `moving.type` before any state
change; that case is modelled as a rejected move.) -/
def movePlan (stops : List UIStop) (index : Nat) (dir : Dir) : Option (List UIStop) :=
  match dir with
  | .up =>
    if index = 0 then none
    else if stops.length ≤ index - 1 then none
    else
      match stops[index]?, stops[index - 1]? with
      | some moving, some target =>
        if moving.type = .empty_start ∨ moving.type = .reposition then none
        else if target.type = .empty_start then none
        else some ((stops.set index target).set (index - 1) moving)
      | _, _ => none
  | .down =>
    if stops.length ≤ index + 1 then none
    else
      match stops[index]?, stops[index + 1]? with
      | some moving, some target =>
        if moving.type = .empty_start ∨ moving.type = .reposition then none
        else if target.type = .reposition then none
        else some ((stops.set index target).set (index + 1) moving)
      | _, _ => none

/-- Local effect of moveStop on the stop list: the swap when allowed,
the unchanged list when a guard fires. -/
def moveStop (stops : List UIStop) (index : Nat) (dir : Dir) : List UIStop :=
  (movePlan stops index dir).getD stops

/-- One persisted row of the stops table, restricted to the two columns
the ordering logic touches (the tenant and trip filters of every query
are recorded separately, see RemoteQuery). -/
structure StopRow where
  id : String
  stop_order : Nat
deriving DecidableEq, Repr

/-- reorderStops(tripId, stopIds): for each stopId at position index,
issue `update stops set stop_order = index where id = stopId` (all
updates batched with Promise.all; each resolves with its own error
field and reorderStops throws after all settle iff any erred).
`uuidValid` says which id strings are well-formed uuids: the stops.id
column is UUID (gen_random_uuid in the schema), so an update whose
id filter carries a malformed uuid string — such as addStop's
Date.now().toString() placeholder — errors instead of matching zero
rows.  `failed` is the set of stop ids whose remote update fails for
other reasons (network, constraint).  A row is rewritten iff some
update in the batch targets its id with a valid uuid and that update
succeeds; the other rows keep their stored stop_order. -/
def applyReorderWith (uuidValid : String → Bool) (rows : List StopRow)
    (stopIds : List String) (failed : List String) : List StopRow :=
  rows.map fun r =>
    if r.id ∈ stopIds ∧ uuidValid r.id = true ∧ r.id ∉ failed then
      { r with stop_order := stopIds.indexOf r.id }
    else r

/-- Whether the whole reorder batch succeeds: reorderStops throws iff
any of its updates errored, which happens for every malformed-uuid
batch entry and for every id in `failed`. -/
def reorderOk (uuidValid : String → Bool) (stopIds : List String)
    (failed : List String) : Bool :=
  stopIds.all fun sid => uuidValid sid && ¬ sid ∈ failed

/-- Local stop list plus the persisted rows of the same trip. -/
structure TripSyncState where
  stops : List UIStop
  remote : List StopRow
deriving DecidableEq, Repr

/-- moveStop of the trip-detail screen, local and remote effects
together.  Guard rejection returns before any state change.  Otherwise
the swapped list is set locally, reorderStops is issued with the new id
order and, when any update of the batch fails, the pre-operation local
snapshot is restored (setStops(stops) in the catch) and an error alert
is surfaced.  The remote rows keep whatever the non-failed updates of
the batch wrote. -/
def moveStopSync (uuidValid : String → Bool) (st : TripSyncState)
    (index : Nat) (dir : Dir) (failed : List String) :
    TripSyncState × Option String :=
  match movePlan st.stops index dir with
  | none => (st, none)
  | some newStops =>
    let stopIds := newStops.map (·.id)
    let remote2 := applyReorderWith uuidValid st.remote stopIds failed
    if reorderOk uuidValid stopIds failed then
      ({ stops := newStops, remote := remote2 }, none)
    else
      ({ stops := st.stops, remote := remote2 }, some "Failed to reorder stops")

/-- handleDelete of the trip-detail screen.  With at most 2 stops it
alerts "Cannot Delete" and returns before any remote call.  Otherwise
deleteStop removes the row, the remaining stops are renumbered through
reorderStops, and only on full success is the local list replaced (on
failure the setStops(newStops) line is never reached, so the local list
is unchanged while the delete and the non-failed updates persist). -/
def handleDelete (uuidValid : String → Bool) (st : TripSyncState)
    (stopId : String) (failed : List String) :
    TripSyncState × Option String :=
  if st.stops.length ≤ 2 then
    (st, some "Cannot Delete: A trip must have at least 2 stops.")
  else
    let newStops := st.stops.filter fun s => s.id ≠ stopId
    let stopIds := newStops.map (·.id)
    let remote1 := st.remote.filter fun r => r.id ≠ stopId
    let remote2 := applyReorderWith uuidValid remote1 stopIds failed
    if reorderOk uuidValid stopIds failed then
      ({ stops := newStops, remote := remote2 }, none)
    else
      ({ stops := st.stops, remote := remote2 }, some "Failed to delete stop")

/-- The fresh stop created by addStop (id = Date.now().toString(), a
placeholder that is not a UUID; type "stop"; mileageToNext 0). -/
def mkNewStop (placeholderId : String) : UIStop :=
  { id := placeholderId
    type := .stop
    isCompleted := false
    odometer := none
    mileageToNext := some 0 }

/-- JS splice-based insertion at position i (splice clamps i to the list
length, appending at the end when i exceeds it). -/
def spliceInsert (l : List UIStop) (i : Nat) (a : UIStop) : List UIStop :=
  l.take i ++ [a] ++ l.drop i

/-- addStop of the trip-detail screen.  The new stop (placeholder id) is
spliced in locally after `afterIndex`; saveStop falls into its insert
branch (a Date.now placeholder never passes the UUID regex) and the
database creates the row under a fresh id `dbId` with
stop_order = afterIndex+1; then reorderStops is issued with the new
local id order — a batch that carries the placeholder id, not `dbId`.
Because the placeholder is not a valid uuid, that batch member errors
against the UUID id column, reorderStops throws, and the catch restores
the pre-operation local snapshot and alerts — while the inserted row
and the renumbered valid-id rows stay persisted.  (Success of the
saveStop insert itself is assumed; `failed` injects additional update
failures.) -/
def addStopSync (uuidValid : String → Bool) (st : TripSyncState)
    (afterIndex : Nat) (placeholderId dbId : String) (failed : List String) :
    TripSyncState × Option String :=
  let newStop := mkNewStop placeholderId
  let newStops := spliceInsert st.stops (afterIndex + 1) newStop
  let stopIds := newStops.map (·.id)
  let remote1 := st.remote ++ [{ id := dbId, stop_order := afterIndex + 1 }]
  let remote2 := applyReorderWith uuidValid remote1 stopIds failed
  if reorderOk uuidValid stopIds failed then
    ({ stops := newStops, remote := remote2 }, none)
  else
    ({ stops := st.stops, remote := remote2 }, some "Failed to add stop")

/-- One user-level structural operation on the open trip. -/
inductive TripOp where
  | move (index : Nat) (dir : Dir)
  | del (stopId : String)
  | add (afterIndex : Nat) (placeholderId dbId : String)
deriving DecidableEq, Repr

/-- State after one operation completes with no injected remote
failures (failed = []).  An add operation still fails its own reorder
batch whenever its placeholder id is not a valid uuid, so its local
list reverts while the inserted row persists; moves and deletes over
valid-uuid ids succeed. -/
def stepOp (uuidValid : String → Bool) (st : TripSyncState) :
    TripOp → TripSyncState
  | .move index dir => (moveStopSync uuidValid st index dir []).1
  | .del stopId => (handleDelete uuidValid st stopId []).1
  | .add afterIndex placeholderId dbId =>
      (addStopSync uuidValid st afterIndex placeholderId dbId []).1

/-- State after a sequence of operations. -/
def runOps (uuidValid : String → Bool) (st : TripSyncState)
    (ops : List TripOp) : TripSyncState :=
  ops.foldl (stepOp uuidValid) st

/-- getComputedMileage(index) of the trip-detail screen: null without a
next stop; the odometer difference when both parsed readings exist and
the next one strictly exceeds the current one; else the static
mileageToNext of the current stop. -/
def getComputedMileage (stops : List UIStop) (index : Nat) : Option Rat :=
  match stops[index]?, stops[index + 1]? with
  | some current, some next =>
    match current.odometer, next.odometer with
    | some curOdo, some nextOdo =>
      if curOdo < nextOdo then some (nextOdo - curOdo)
      else current.mileageToNext
    | _, _ => current.mileageToNext
  | _, _ => none

/-- Naive calendar timestamp, as compared by the JS Date values the
lateness check builds (no timezone suffix occurs in those strings). -/
structure DateTime where
  year : Nat
  month : Nat
  day : Nat
  hour : Nat
  minute : Nat
  second : Nat
deriving DecidableEq, Repr

/-- Chronological strict order of two timestamps (field-lexicographic,
which is the epoch order for calendar-valid fields). -/
def DateTime.ltb (a b : DateTime) : Bool :=
  if a.year ≠ b.year then a.year < b.year
  else if a.month ≠ b.month then a.month < b.month
  else if a.day ≠ b.day then a.day < b.day
  else if a.hour ≠ b.hour then a.hour < b.hour
  else if a.minute ≠ b.minute then a.minute < b.minute
  else decide (a.second < b.second)

/-- Split a character list at every occurrence of `sep`. -/
def splitOnChar (sep : Char) (l : List Char) : List (List Char) :=
  match l with
  | [] => [[]]
  | c :: rest =>
    let tail := splitOnChar sep rest
    if c = sep then [] :: tail
    else
      match tail with
      | [] => [[c]]
      | chunk :: more => (c :: chunk) :: more

/-- Parse a nonempty all-digit character list. -/
def parseNatDigits (l : List Char) : Option Nat :=
  if l = [] then none
  else l.foldlM (fun acc c =>
    if c.isDigit then some (acc * 10 + (c.toNat - 48)) else none) 0

/-- Parse "YYYY-MM-DD". -/
def parseDate (s : String) : Option (Nat × Nat × Nat) :=
  match (splitOnChar '-' s.toList).mapM parseNatDigits with
  | some [y, m, d] => some (y, m, d)
  | _ => none

/-- Parse "HH:MM" or "HH:MM:SS" (a missing seconds part reads as 0,
as for a JS Date). -/
def parseTime (s : List Char) : Option (Nat × Nat × Nat) :=
  match (splitOnChar ':' s).mapM parseNatDigits with
  | some [h, m] => some (h, m, 0)
  | some [h, m, sec] => some (h, m, sec)
  | _ => none

/-- Parse "YYYY-MM-DDTHH:MM[:SS]".  An unparseable string stands for a
JS Invalid Date, which makes every comparison against it false. -/
def parseDateTime (s : String) : Option DateTime :=
  match splitOnChar 'T' s.toList with
  | [d, t] =>
    match parseDate (String.mk d), parseTime t with
    | some (y, mo, dd), some (h, mi, sec) =>
      some { year := y, month := mo, day := dd
             hour := h, minute := mi, second := sec }
    | _, _ => none
  | _ => none

/-- The expected-timestamp string built by the lateness check of
dbStopToUIStop: date + "T" + time (":00" appended to an "HH:MM" time),
or date + "T23:59:59" when no expected time is set. -/
def buildExpectedStr (expected_date : String) (expected_time : Option String) : String :=
  match expected_time with
  | some t =>
    expected_date ++ "T" ++ (if t.length = 5 then t ++ ":00" else t)
  | none => expected_date ++ "T23:59:59"

/-- The isLate computation of dbStopToUIStop: false unless both an
expected date and a completion timestamp are present; otherwise
new Date(completed_at) > new Date(expectedStr), strict, with an
Invalid Date on either side yielding false. -/
def isLate (expected_date : Option String) (expected_time : Option String)
    (completed_at : Option String) : Bool :=
  match expected_date, completed_at with
  | some d, some c =>
    let expectedStr := buildExpectedStr d expected_time
    match parseDateTime c, parseDateTime expectedStr with
    | some cd, some ed => DateTime.ltb ed cd
    | _, _ => false
  | _, _ => false

/-- Which of net / GST / total the user most recently edited. -/
inductive LastEdited where
  | net
  | gst
  | total
deriving DecidableEq, Repr

/-- The three amount fields of the new-expense form plus the
last-edited tracker.  A field holds none for the empty string and
some v for a numeric entry v (string truthiness = isSome). -/
structure ExpenseForm where
  netAmount : Option Rat
  gst : Option Rat
  total : Option Rat
  lastEdited : Option LastEdited
deriving DecidableEq, Repr

/-- parseFloat(field) || 0: an empty field reads as 0. -/
def parseNum (v : Option Rat) : Rat :=
  v.getD 0

/-- The reconciliation effect of the new-expense screen (one pass; its
own writes re-trigger it but at a fixed point).  Skipped entirely when
the country setting hides the tax breakdown. -/
def reconcile (showTaxBreakdown : Bool) (f : ExpenseForm) : ExpenseForm :=
  if !showTaxBreakdown then f
  else
    let net := parseNum f.netAmount
    let tax := parseNum f.gst
    let tot := parseNum f.total
    if f.lastEdited = some .net ∨ (f.lastEdited = some .gst ∧ f.netAmount.isSome) then
      { f with total := some (net + tax) }
    else if f.lastEdited = some .total ∨
        (f.lastEdited = some .gst ∧ f.total.isSome ∧ ¬ f.netAmount.isSome) then
      { f with netAmount := some (max (tot - tax) 0) }
    else f

/-- One user edit: onNetChange / onGstChange / onTotalChange writes the
field and the last-edited tracker, then the effect reconciles. -/
def editField (showTaxBreakdown : Bool) (f : ExpenseForm)
    (which : LastEdited) (v : Option Rat) : ExpenseForm :=
  let f1 :=
    match which with
    | .net => { f with netAmount := v, lastEdited := some .net }
    | .gst => { f with gst := v, lastEdited := some .gst }
    | .total => { f with total := v, lastEdited := some .total }
  reconcile showTaxBreakdown f1

/-- The form as initially mounted (all fields empty). -/
def emptyForm : ExpenseForm :=
  { netAmount := none, gst := none, total := none, lastEdited := none }

/-- Kind of a remote row operation. -/
inductive QueryKind where
  | select
  | insert
  | update
  | delete
deriving DecidableEq, Repr

/-- One remote call of the persistence layer: the table, the operation
kind, the .eq-filters it chains, and, for writes that carry a row
payload, the tenant_id written into that payload. -/
structure RemoteQuery where
  table : String
  kind : QueryKind
  eqFilters : List (String × String)
  payloadTenant : Option String
deriving DecidableEq, Repr

/-- getTenantId: null without a session; otherwise the tenant_users
lookup for the session user (null when no mapping row exists). -/
def getTenantId (session : Option String)
    (tenantUsers : String → Option String) : Option String :=
  match session with
  | none => none
  | some userId => tenantUsers userId

/-- The error every persistence-layer operation throws when no tenant
can be resolved, before issuing any query on trip data. -/
def noTenantError : String :=
  "No tenant_id found. Please ensure you are logged in."

/-- fetchTripStops: one select on stops filtered by trip and tenant. -/
def fetchTripStopsQueries (tenantId : Option String) (tripId : String) :
    Except String (List RemoteQuery) :=
  match tenantId with
  | none => .error noTenantError
  | some t => .ok
      [{ table := "stops", kind := .select
         eqFilters := [("trip_id", tripId), ("tenant_id", t)]
         payloadTenant := none }]

/-- fetchTrip: one select on trips filtered by id and tenant. -/
def fetchTripQueries (tenantId : Option String) (tripId : String) :
    Except String (List RemoteQuery) :=
  match tenantId with
  | none => .error noTenantError
  | some t => .ok
      [{ table := "trips", kind := .select
         eqFilters := [("id", tripId), ("tenant_id", t)]
         payloadTenant := none }]

/-- saveStop: when the stop id is UUID-shaped, a tenant-filtered
existence select; then either a tenant-filtered update (row found) or
an insert whose payload carries the tenant id. -/
def saveStopQueries (tenantId : Option String) (stopId : String)
    (uuidValid existsRemotely : Bool) : Except String (List RemoteQuery) :=
  match tenantId with
  | none => .error noTenantError
  | some t =>
    let checkQ : List RemoteQuery :=
      if uuidValid then
        [{ table := "stops", kind := .select
           eqFilters := [("id", stopId), ("tenant_id", t)]
           payloadTenant := none }]
      else []
    let writeQ : List RemoteQuery :=
      if uuidValid ∧ existsRemotely then
        [{ table := "stops", kind := .update
           eqFilters := [("id", stopId), ("tenant_id", t)]
           payloadTenant := some t }]
      else
        [{ table := "stops", kind := .insert
           eqFilters := []
           payloadTenant := some t }]
    .ok (checkQ ++ writeQ)

/-- deleteStop: one tenant-filtered delete. -/
def deleteStopQueries (tenantId : Option String) (stopId : String) :
    Except String (List RemoteQuery) :=
  match tenantId with
  | none => .error noTenantError
  | some t => .ok
      [{ table := "stops", kind := .delete
         eqFilters := [("id", stopId), ("tenant_id", t)]
         payloadTenant := none }]

/-- reorderStops: one update per stop id, each filtered by id, tenant
and trip. -/
def reorderStopsQueries (tenantId : Option String) (tripId : String)
    (stopIds : List String) : Except String (List RemoteQuery) :=
  match tenantId with
  | none => .error noTenantError
  | some t => .ok (stopIds.map fun sid =>
      { table := "stops", kind := .update
        eqFilters := [("id", sid), ("tenant_id", t), ("trip_id", tripId)]
        payloadTenant := none })

/-- completeStop: one tenant-filtered update. -/
def completeStopQueries (tenantId : Option String) (stopId : String) :
    Except String (List RemoteQuery) :=
  match tenantId with
  | none => .error noTenantError
  | some t => .ok
      [{ table := "stops", kind := .update
         eqFilters := [("id", stopId), ("tenant_id", t)]
         payloadTenant := none }]

/-- A run of moveStop calls, in order. -/
def runMoves (stops : List UIStop) (moves : List (Nat × Dir)) : List UIStop :=
  moves.foldl (fun l p => moveStop l p.1 p.2) stops

section Theorems

/-- moveStop never changes the number of stops. -/
theorem moveStop_length (stops : List UIStop) (i : Nat) (d : Dir) :
    (moveStop stops i d).length = stops.length := by
  unfold moveStop movePlan
  cases d <;> dsimp only <;> repeat' split
  all_goals simp [List.length_set]

/-- Inversion of an accepted upward move. -/
theorem movePlan_up_some {stops : List UIStop} {i : Nat} {res : List UIStop}
    (h : movePlan stops i .up = some res) :
    ∃ moving target, i ≠ 0 ∧ stops[i]? = some moving ∧ stops[i-1]? = some target ∧
      moving.type ≠ .empty_start ∧ moving.type ≠ .reposition ∧
      target.type ≠ .empty_start ∧
      res = (stops.set i target).set (i - 1) moving := by
  unfold movePlan at h
  dsimp only at h
  split at h
  · exact absurd h (by simp)
  · split at h
    · exact absurd h (by simp)
    · rename_i h0 hlen
      rcases hm : stops[i]? with _ | moving
      · rw [hm] at h; exact absurd h (by simp)
      rcases ht : stops[i-1]? with _ | target
      · rw [hm, ht] at h; exact absurd h (by simp)
      rw [hm, ht] at h
      dsimp only at h
      split at h
      · exact absurd h (by simp)
      split at h
      · exact absurd h (by simp)
      rename_i hmt htt
      push_neg at hmt
      exact ⟨moving, target, h0, rfl, rfl, hmt.1, hmt.2, htt, (Option.some_inj.mp h).symm⟩

/-- Inversion of an accepted downward move. -/
theorem movePlan_down_some {stops : List UIStop} {i : Nat} {res : List UIStop}
    (h : movePlan stops i .down = some res) :
    ∃ moving target, stops[i]? = some moving ∧ stops[i+1]? = some target ∧
      moving.type ≠ .empty_start ∧ moving.type ≠ .reposition ∧
      target.type ≠ .reposition ∧
      res = (stops.set i target).set (i + 1) moving := by
  unfold movePlan at h
  dsimp only at h
  split at h
  · exact absurd h (by simp)
  · rename_i hlen
    rcases hm : stops[i]? with _ | moving
    · rw [hm] at h; exact absurd h (by simp)
    rcases ht : stops[i+1]? with _ | target
    · rw [hm, ht] at h; exact absurd h (by simp)
    rw [hm, ht] at h
    dsimp only at h
    split at h
    · exact absurd h (by simp)
    split at h
    · exact absurd h (by simp)
    rename_i hmt htt
    push_neg at hmt
    exact ⟨moving, target, rfl, rfl, hmt.1, hmt.2, htt, (Option.some_inj.mp h).symm⟩

/-- One moveStop call keeps the boundary stops in place. -/
theorem moveStop_keeps_bounds {stops : List UIStop} {s0 sl : UIStop}
    (h0 : stops[0]? = some s0) (h0t : s0.type = .empty_start)
    (hl : stops[stops.length - 1]? = some sl) (hlt : sl.type = .reposition)
    (i : Nat) (d : Dir) :
    (moveStop stops i d)[0]? = some s0 ∧
      (moveStop stops i d)[stops.length - 1]? = some sl := by
  rcases hplan : movePlan stops i d with _ | res
  · simp [moveStop, hplan, h0, hl]
  have hres : moveStop stops i d = res := by simp [moveStop, hplan]
  rw [hres]
  cases d
  case up =>
    obtain ⟨moving, target, hi0, hm, ht, _, hmrp, htes, hr⟩ := movePlan_up_some hplan
    have hilt : i < stops.length := (List.getElem?_eq_some.mp hm).1
    have htlt : i - 1 < stops.length := (List.getElem?_eq_some.mp ht).1
    have hne1 : i - 1 ≠ 0 := by
      intro hc
      rw [hc, h0] at ht
      apply htes
      rw [← Option.some_inj.mp ht, h0t]
    have hne2 : i ≠ stops.length - 1 := by
      intro hc
      rw [hc, hl] at hm
      apply hmrp
      rw [← Option.some_inj.mp hm, hlt]
    have hne3 : i - 1 ≠ stops.length - 1 := by omega
    subst hr
    constructor
    · rw [List.getElem?_set_ne (by omega), List.getElem?_set_ne (by omega), h0]
    · rw [List.getElem?_set_ne (by omega), List.getElem?_set_ne (by omega), hl]
  case down =>
    obtain ⟨moving, target, hm, ht, hmes, _, htrp, hr⟩ := movePlan_down_some hplan
    have hilt : i < stops.length := (List.getElem?_eq_some.mp hm).1
    have htlt : i + 1 < stops.length := (List.getElem?_eq_some.mp ht).1
    have hne1 : i ≠ 0 := by
      intro hc
      rw [hc, h0] at hm
      apply hmes
      rw [← Option.some_inj.mp hm, h0t]
    have hne2 : i + 1 ≠ stops.length - 1 := by
      intro hc
      rw [hc, hl] at ht
      apply htrp
      rw [← Option.some_inj.mp ht, hlt]
    have hne3 : i ≠ stops.length - 1 := by omega
    subst hr
    constructor
    · rw [List.getElem?_set_ne (by omega), List.getElem?_set_ne (by omega), h0]
    · rw [List.getElem?_set_ne (by omega), List.getElem?_set_ne (by omega), hl]

/-- A whole run of moveStop calls keeps the length and both boundary
stops in place. -/
theorem runMoves_keeps_bounds {stops : List UIStop} {s0 sl : UIStop}
    (h0 : stops[0]? = some s0) (h0t : s0.type = .empty_start)
    (hl : stops[stops.length - 1]? = some sl) (hlt : sl.type = .reposition)
    (moves : List (Nat × Dir)) :
    (runMoves stops moves).length = stops.length ∧
      (runMoves stops moves)[0]? = some s0 ∧
      (runMoves stops moves)[stops.length - 1]? = some sl := by
  induction moves generalizing stops with
  | nil => exact ⟨rfl, h0, hl⟩
  | cons p rest ih =>
    have hstep := moveStop_keeps_bounds h0 h0t hl hlt p.1 p.2
    have hlen := moveStop_length stops p.1 p.2
    have hl' : (moveStop stops p.1 p.2)[(moveStop stops p.1 p.2).length - 1]? = some sl := by
      rw [hlen]; exact hstep.2
    have := ih hstep.1 hl'
    rw [hlen] at this
    exact ⟨this.1.trans rfl, this.2.1, this.2.2⟩

/-- The out-of-bounds guards of moveStop are no-ops. -/
theorem moveStop_noop_oob (stops : List UIStop) (i : Nat) :
    moveStop stops 0 .up = stops ∧
      (stops.length ≤ i - 1 → moveStop stops i .up = stops) ∧
      (stops.length ≤ i + 1 → moveStop stops i .down = stops) := by
  refine ⟨by simp [moveStop, movePlan], fun h => ?_, fun h => ?_⟩
  · unfold moveStop movePlan
    dsimp only
    split_ifs <;> rfl
  · unfold moveStop movePlan
    dsimp only
    split_ifs
    rfl

/-- Trying to move an empty-start or reposition stop is a no-op. -/
theorem moveStop_noop_type {stops : List UIStop} {i : Nat} {moving : UIStop}
    (hm : stops[i]? = some moving)
    (htype : moving.type = .empty_start ∨ moving.type = .reposition)
    (d : Dir) : moveStop stops i d = stops := by
  rcases hplan : movePlan stops i d with _ | res
  · simp [moveStop, hplan]
  exfalso
  cases d
  case up =>
    obtain ⟨moving', _, _, hm', _, hes, hrp, _, _⟩ := movePlan_up_some hplan
    rw [hm] at hm'
    cases Option.some_inj.mp hm'
    rcases htype with h | h
    · exact hes h
    · exact hrp h
  case down =>
    obtain ⟨moving', _, hm', _, hes, hrp, _, _⟩ := movePlan_down_some hplan
    rw [hm] at hm'
    cases Option.some_inj.mp hm'
    rcases htype with h | h
    · exact hes h
    · exact hrp h

/-- Moving up onto the empty-start stop is a no-op. -/
theorem moveStop_noop_up_target {stops : List UIStop} {i : Nat} {target : UIStop}
    (ht : stops[i-1]? = some target) (htt : target.type = .empty_start) :
    moveStop stops i .up = stops := by
  rcases hplan : movePlan stops i .up with _ | res
  · simp [moveStop, hplan]
  exfalso
  obtain ⟨_, target', _, _, ht', _, _, hes, _⟩ := movePlan_up_some hplan
  rw [ht] at ht'
  cases Option.some_inj.mp ht'
  exact hes htt

/-- Moving down onto the reposition stop is a no-op. -/
theorem moveStop_noop_down_target {stops : List UIStop} {i : Nat} {target : UIStop}
    (ht : stops[i+1]? = some target) (htt : target.type = .reposition) :
    moveStop stops i .down = stops := by
  rcases hplan : movePlan stops i .down with _ | res
  · simp [moveStop, hplan]
  exfalso
  obtain ⟨_, target', _, ht', _, _, hrp, _⟩ := movePlan_down_some hplan
  rw [ht] at ht'
  cases Option.some_inj.mp ht'
  exact hrp htt

/-- C2: on a stop list with an empty-start stop at position 0 and a
reposition stop at the last position, no sequence of moveStop calls
changes either position, and moveStop returns the list unchanged when
the target index is out of bounds, when the stop being moved is
empty-start or reposition, or when the displaced neighbor is the
empty-start (moving up) or the reposition (moving down). -/
theorem moveStop_boundary_lock (stops : List UIStop) (s0 sl : UIStop)
    (h0 : stops[0]? = some s0) (h0t : s0.type = .empty_start)
    (hl : stops[stops.length - 1]? = some sl) (hlt : sl.type = .reposition) :
    (∀ moves : List (Nat × Dir),
      (runMoves stops moves)[0]? = some s0 ∧
        (runMoves stops moves)[(runMoves stops moves).length - 1]? = some sl)
    ∧ moveStop stops 0 .up = stops
    ∧ (∀ i, stops.length ≤ i - 1 → moveStop stops i .up = stops)
    ∧ (∀ i, stops.length ≤ i + 1 → moveStop stops i .down = stops)
    ∧ (∀ i moving d, stops[i]? = some moving →
        moving.type = .empty_start ∨ moving.type = .reposition →
        moveStop stops i d = stops)
    ∧ (∀ i target, stops[i-1]? = some target → target.type = .empty_start →
        moveStop stops i .up = stops)
    ∧ (∀ i target, stops[i+1]? = some target → target.type = .reposition →
        moveStop stops i .down = stops) := by
  refine ⟨fun moves => ?_, (moveStop_noop_oob stops 0).1,
    fun i => (moveStop_noop_oob stops i).2.1, fun i => (moveStop_noop_oob stops i).2.2,
    fun i moving d hm htype => moveStop_noop_type hm htype d,
    fun i target ht htt => moveStop_noop_up_target ht htt,
    fun i target ht htt => moveStop_noop_down_target ht htt⟩
  obtain ⟨hlen, hh, hll⟩ := runMoves_keeps_bounds h0 h0t hl hlt moves
  exact ⟨hh, by rw [hlen]; exact hll⟩

/-- Concrete stop list for the boundary-lock witness. -/
def csBL : List UIStop :=
  [{ id := "a", type := .empty_start, isCompleted := false
     odometer := none, mileageToNext := none },
   { id := "b", type := .pickup, isCompleted := false
     odometer := none, mileageToNext := none },
   { id := "c", type := .delivery, isCompleted := false
     odometer := none, mileageToNext := none },
   { id := "d", type := .reposition, isCompleted := false
     odometer := none, mileageToNext := none }]

/-- Witness: the boundary lock, instantiated on a concrete 4-stop trip
and a concrete run of moves. -/
theorem moveStop_boundary_lock_witness :
    (runMoves csBL [(1, .down), (2, .down), (2, .up), (3, .down), (1, .up)])[0]? =
        some csBL[0] ∧
      (runMoves csBL [(1, .down), (2, .down), (2, .up), (3, .down), (1, .up)])[(runMoves
        csBL [(1, .down), (2, .down), (2, .up), (3, .down), (1, .up)]).length - 1]? =
        some csBL[3] := by
  exact (moveStop_boundary_lock csBL csBL[0] csBL[3] (by rfl) (by rfl)
    (by rfl) (by rfl)).1 [(1, .down), (2, .down), (2, .up), (3, .down), (1, .up)]

/-- C3: when the batch reorder issued by a stop move fails for any stop
of the batch, the local stop list is restored to the exact
pre-operation snapshot as a whole (never per-row) and an error is
surfaced. -/
theorem moveStop_rollback_atomic (uuidValid : String → Bool)
    (st : TripSyncState) (index : Nat) (d : Dir)
    (failed : List String) (newStops : List UIStop)
    (hplan : movePlan st.stops index d = some newStops)
    (hfail : reorderOk uuidValid (newStops.map (·.id)) failed = false) :
    (moveStopSync uuidValid st index d failed).1.stops = st.stops ∧
      (moveStopSync uuidValid st index d failed).2.isSome = true := by
  unfold moveStopSync
  rw [hplan]
  dsimp only
  rw [if_neg (by simp [hfail])]
  exact ⟨rfl, rfl⟩

/-- Valid-uuid model for a trip whose stop ids were all loaded from the
database rows. -/
def allUuid : String → Bool := fun _ => true

/-- Concrete pre-operation state for the rollback witness: four synced
stops; the remote update for stop "c" will fail. -/
def stRB : TripSyncState :=
  { stops := csBL
    remote := [{ id := "a", stop_order := 0 }, { id := "b", stop_order := 1 },
               { id := "c", stop_order := 2 }, { id := "d", stop_order := 3 }] }

/-- Witness: a concrete failing move (stop "b" moved down, remote write
for "c" fails) rolls the local list back in full and surfaces an
error. -/
theorem moveStop_rollback_atomic_witness :
    (moveStopSync allUuid stRB 1 .down ["c"]).1.stops = stRB.stops ∧
      (moveStopSync allUuid stRB 1 .down ["c"]).2.isSome = true :=
  moveStop_rollback_atomic allUuid stRB 1 .down ["c"]
    ((csBL.set 1 csBL[2]).set 2 csBL[1]) (by rfl) (by rfl)

/-- Deleting one id from a list with duplicate-free ids removes at most
one stop. -/
theorem filter_ne_id_length {stops : List UIStop} {sid : String}
    (h : (stops.map (·.id)).Nodup) :
    stops.length - 1 ≤ (stops.filter fun s => s.id ≠ sid).length := by
  induction stops with
  | nil => simp
  | cons s rest ih =>
    rw [List.map_cons, List.nodup_cons] at h
    have ihr := ih h.2
    by_cases hs : s.id = sid
    · have hrest : (rest.filter fun s => s.id ≠ sid) = rest := by
        apply List.filter_eq_self.mpr
        intro r hr
        simp only [ne_eq, decide_eq_true_eq]
        intro hc
        apply h.1
        rw [hs, ← hc]
        exact List.mem_map_of_mem (·.id) hr
      simp only [List.filter_cons, List.length_cons, hrest]
      rw [if_neg (by simp [hs])]
      omega
    · simp only [List.filter_cons, List.length_cons]
      rw [if_pos (by simp [hs])]
      simp only [List.length_cons]
      omega

/-- C4: removeStop (handleDelete) on a trip with at most 2 stops always
returns a caller-visible error with local and remote state untouched,
and (for duplicate-free stop ids) a delete never brings the stop count
below the 2-stop floor. -/
theorem removeStop_floor (uuidValid : String → Bool) (st : TripSyncState)
    (stopId : String) (failed : List String) :
    (st.stops.length ≤ 2 →
      handleDelete uuidValid st stopId failed =
        (st, some "Cannot Delete: A trip must have at least 2 stops."))
    ∧ ((st.stops.map (·.id)).Nodup → 2 ≤ st.stops.length →
        2 ≤ (handleDelete uuidValid st stopId failed).1.stops.length) := by
  constructor
  · intro h
    unfold handleDelete
    rw [if_pos h]
  · intro hnd h2
    unfold handleDelete
    split_ifs with hle
    · exact h2
    · dsimp only
      split_ifs with hok
      · dsimp only
        have := @filter_ne_id_length st.stops stopId hnd
        omega
      · exact h2

/-- Witness: on a concrete 2-stop trip the delete is rejected with the
alert and the state is returned unchanged; on a concrete 3-stop trip a
delete keeps at least 2 stops. -/
theorem removeStop_floor_witness :
    (handleDelete allUuid { stops := csBL.take 2, remote := [] } "a" [] =
      ({ stops := csBL.take 2, remote := [] },
        some "Cannot Delete: A trip must have at least 2 stops."))
    ∧ 2 ≤ (handleDelete allUuid
        { stops := csBL.take 3, remote := [] } "b" []).1.stops.length :=
  ⟨(removeStop_floor allUuid { stops := csBL.take 2, remote := [] } "a" []).1
      (by decide),
   (removeStop_floor allUuid { stops := csBL.take 3, remote := [] } "b" []).2
      (by decide) (by decide)⟩

/-- C5: between consecutive stops A and B, the computed mileage is the
odometer difference whenever both readings are present and B strictly
exceeds A (the manual value is ignored then), and in every other case
it is A's static mileage-to-next value (null when absent). -/
theorem mileage_fallback_priority (stops : List UIStop) (i : Nat) (A B : UIStop)
    (hA : stops[i]? = some A) (hB : stops[i+1]? = some B) :
    (∀ a b, A.odometer = some a → B.odometer = some b → a < b →
      getComputedMileage stops i = some (b - a))
    ∧ ((∀ a b, A.odometer = some a → B.odometer = some b → ¬ a < b) →
      getComputedMileage stops i = A.mileageToNext) := by
  constructor
  · intro a b ha hb hab
    unfold getComputedMileage
    rw [hA, hB]
    dsimp only
    rw [ha, hb]
    dsimp only
    rw [if_pos hab]
  · intro hno
    unfold getComputedMileage
    rw [hA, hB]
    dsimp only
    rcases ha : A.odometer with _ | a
    · rfl
    rcases hb : B.odometer with _ | b
    · rfl
    dsimp only
    rw [if_neg (hno a b ha hb)]

/-- Stop A of the mileage witness: odometer 100, manual value 999. -/
def stopMA : UIStop :=
  { id := "a", type := .pickup, isCompleted := false
    odometer := some 100, mileageToNext := some 999 }

/-- Stop B of the mileage witness: odometer 250. -/
def stopMB : UIStop :=
  { id := "b", type := .delivery, isCompleted := false
    odometer := some 250, mileageToNext := none }

/-- Witness: odometer delta 150 wins over the manual 999; with B's
reading removed the manual 999 is returned; with both readings and the
manual value absent the result is null. -/
theorem mileage_fallback_priority_witness :
    getComputedMileage [stopMA, stopMB] 0 = some 150
    ∧ getComputedMileage [stopMA, { stopMB with odometer := none }] 0 = some 999
    ∧ getComputedMileage
        [{ stopMA with odometer := none, mileageToNext := none },
         { stopMB with odometer := none }] 0 = none := by
  refine ⟨?_, ?_, ?_⟩
  · have h := (mileage_fallback_priority [stopMA, stopMB] 0 stopMA stopMB
      (by rfl) (by rfl)).1 100 250 (by rfl) (by rfl) (by norm_num)
    rw [h]
    norm_num
  · exact (mileage_fallback_priority [stopMA, { stopMB with odometer := none }] 0
      stopMA { stopMB with odometer := none } (by rfl) (by rfl)).2
      (by intro a b ha hb; simp at hb)
  · exact (mileage_fallback_priority _ 0
      { stopMA with odometer := none, mileageToNext := none }
      { stopMB with odometer := none } (by rfl) (by rfl)).2
      (by intro a b ha hb; simp at hb)

/-- C6 counterexample: the claim asserts that with expectedDate
2026-02-06 and no expected time, a completion at 2026-02-06T23:59:01 is
late; the code compares against the end-of-day default 23:59:59, and
23:59:01 is not strictly after it, so isLate is false there. -/
theorem isLate_counterexample :
    isLate (some "2026-02-06") none (some "2026-02-06T23:59:01") = false := by
  decide

/-- C6 amended: isLate is true exactly when the stop has both an
expected date and a completion timestamp and the completion timestamp
is strictly after the expected date-time, a missing expected time
defaulting to 23:59:59 of the expected date; in particular completions
at 2026-02-06T23:59:01 and 2026-02-06T18:00:00 against expectedDate
2026-02-06 with no expected time are both not late, while
2026-02-07T00:00:30 is late. -/
theorem isLate_strict_after (d c : String) (t : Option String) (ed cd : DateTime)
    (hpe : parseDateTime (buildExpectedStr d t) = some ed)
    (hpc : parseDateTime c = some cd) :
    isLate (some d) t (some c) = DateTime.ltb ed cd
    ∧ (∀ et ca, isLate none et ca = false)
    ∧ (∀ edo et, isLate edo et none = false)
    ∧ buildExpectedStr d none = d ++ "T23:59:59"
    ∧ isLate (some "2026-02-06") none (some "2026-02-06T23:59:01") = false
    ∧ isLate (some "2026-02-06") none (some "2026-02-06T18:00:00") = false
    ∧ isLate (some "2026-02-06") none (some "2026-02-07T00:00:30") = true := by
  refine ⟨?_, fun et ca => rfl, fun edo et => by cases edo <;> rfl, rfl,
    by decide, by decide, by decide⟩
  unfold isLate
  dsimp only
  rw [hpc, hpe]

/-- Witness: the amended lateness rule applied to the concrete
end-of-day default comparison. -/
theorem isLate_strict_after_witness :
    isLate (some "2026-02-06") none (some "2026-02-07T00:00:30") =
      DateTime.ltb
        { year := 2026, month := 2, day := 6, hour := 23, minute := 59, second := 59 }
        { year := 2026, month := 2, day := 7, hour := 0, minute := 0, second := 30 } :=
  (isLate_strict_after "2026-02-06" "2026-02-07T00:00:30" none
    { year := 2026, month := 2, day := 6, hour := 23, minute := 59, second := 59 }
    { year := 2026, month := 2, day := 7, hour := 0, minute := 0, second := 30 }
    (by decide) (by decide)).1

/-- C7: the net/GST/total reconciliation is last-touched-wins: editing
net, or editing GST while net is populated, recomputes total as
net + tax; editing total, or editing GST while total is populated and
net is not, recomputes net as max(total - tax, 0); concretely
net=80 then tax=10 yields total=90, editing total to 120 then yields
net=110, and editing tax to 20 after net=80 was entered yields
total=100 with net unchanged at 80. -/
theorem expense_reconciliation (f : ExpenseForm) (v : Rat) :
    ((editField true f .net (some v)).total = some (v + parseNum f.gst))
    ∧ (f.netAmount.isSome = true →
        (editField true f .gst (some v)).total = some (parseNum f.netAmount + v)
        ∧ (editField true f .gst (some v)).netAmount = f.netAmount)
    ∧ ((editField true f .total (some v)).netAmount =
        some (max (v - parseNum f.gst) 0))
    ∧ (f.netAmount = none → f.total.isSome = true →
        (editField true f .gst (some v)).netAmount =
          some (max (parseNum f.total - v) 0))
    ∧ ((editField true (editField true emptyForm .net (some 80)) .gst
          (some 10)).total = some 90)
    ∧ ((editField true (editField true (editField true emptyForm .net (some 80))
          .gst (some 10)) .total (some 120)).netAmount = some 110)
    ∧ ((editField true (editField true emptyForm .net (some 80)) .gst
          (some 20)).total = some 100)
    ∧ ((editField true (editField true emptyForm .net (some 80)) .gst
          (some 20)).netAmount = some 80) := by
  refine ⟨?_, fun hnet => ⟨?_, ?_⟩, ?_, fun hnone htot => ?_, ?_, ?_, ?_, ?_⟩
  · simp [editField, reconcile, parseNum]
  · simp [editField, reconcile, parseNum, hnet]
  · simp [editField, reconcile, parseNum, hnet]
  · simp [editField, reconcile, parseNum]
  · simp [editField, reconcile, parseNum, hnone, htot]
  · simp [editField, reconcile, emptyForm, parseNum]
    norm_num
  · simp [editField, reconcile, emptyForm, parseNum]
    norm_num
  · simp [editField, reconcile, emptyForm, parseNum]
    norm_num
  · simp [editField, reconcile, emptyForm, parseNum]

/-- Witness: the GST-edit branches of the reconciliation at concrete
forms (net populated, and total populated without net). -/
theorem expense_reconciliation_witness :
    ((editField true
        { netAmount := some 80, gst := none, total := none, lastEdited := some .net }
        .gst (some 20)).total = some 100)
    ∧ ((editField true
        { netAmount := none, gst := none, total := some 120, lastEdited := some .total }
        .gst (some 20)).netAmount = some 100) := by
  constructor
  · have h := ((expense_reconciliation
      { netAmount := some 80, gst := none, total := none, lastEdited := some .net }
      20).2.1 (by rfl)).1
    rw [h]
    simp [parseNum]
    norm_num
  · have h := (expense_reconciliation
      { netAmount := none, gst := none, total := some 120, lastEdited := some .total }
      20).2.2.2.1 (by rfl) (by rfl)
    rw [h]
    simp [parseNum]
    norm_num

/-- C10 counterexample: the insert branch of saveStop (a stop whose id
is not yet a database uuid) issues an insert that carries no equality
filter at all — the tenant id travels only in the inserted row's
payload — so it is not the case that every remote write of the
persistence layer carries an equality filter on the tenant id. -/
theorem tenant_scoping_counterexample :
    saveStopQueries (some "t1") "901" false false =
      .ok [{ table := "stops", kind := .insert
             eqFilters := [], payloadTenant := some "t1" }]
    ∧ ¬ (("tenant_id", "t1") ∈
        ({ table := "stops", kind := .insert
           eqFilters := [], payloadTenant := some "t1" } : RemoteQuery).eqFilters) := by
  exact ⟨rfl, by simp⟩

/-- C10 amended: every remote select, update, and delete of the trip
persistence layer (fetch trip, fetch stops, save stop, delete stop,
reorder stops, complete stop) carries an equality filter on the tenant
id resolved from the session; the one write without a filter — the
insert branch of saveStop — writes that tenant id into the inserted
row itself; and with no session or no tenant mapping the resolution is
null and every operation fails with the no-tenant error before issuing
any query, so no operation touches a row of another tenant. -/
theorem tenant_scoping_all_ops :
    (∀ tenantUsers, getTenantId none tenantUsers = none)
    ∧ (∀ session tenantUsers, getTenantId session tenantUsers = none →
        ∀ tripId stopId stopIds uuidOk existsRemotely,
          fetchTripStopsQueries (getTenantId session tenantUsers) tripId =
            .error noTenantError
          ∧ fetchTripQueries (getTenantId session tenantUsers) tripId =
            .error noTenantError
          ∧ saveStopQueries (getTenantId session tenantUsers) stopId
              uuidOk existsRemotely = .error noTenantError
          ∧ deleteStopQueries (getTenantId session tenantUsers) stopId =
            .error noTenantError
          ∧ reorderStopsQueries (getTenantId session tenantUsers) tripId stopIds =
            .error noTenantError
          ∧ completeStopQueries (getTenantId session tenantUsers) stopId =
            .error noTenantError)
    ∧ (∀ t tripId stopId stopIds uuidOk existsRemotely qs,
        (fetchTripStopsQueries (some t) tripId = .ok qs
          ∨ fetchTripQueries (some t) tripId = .ok qs
          ∨ saveStopQueries (some t) stopId uuidOk existsRemotely = .ok qs
          ∨ deleteStopQueries (some t) stopId = .ok qs
          ∨ reorderStopsQueries (some t) tripId stopIds = .ok qs
          ∨ completeStopQueries (some t) stopId = .ok qs) →
        ∀ q ∈ qs,
          (q.kind ≠ .insert → ("tenant_id", t) ∈ q.eqFilters)
          ∧ (q.kind = .insert → q.payloadTenant = some t)) := by
  refine ⟨fun tenantUsers => rfl, ?_, ?_⟩
  · intro session tenantUsers hnone tripId stopId stopIds uuidOk existsRemotely
    rw [hnone]
    exact ⟨rfl, rfl, rfl, rfl, rfl, rfl⟩
  · intro t tripId stopId stopIds uuidOk existsRemotely qs hop q hq
    rcases hop with h | h | h | h | h | h
    · simp only [fetchTripStopsQueries] at h
      injection h with h
      subst h
      fin_cases hq; exact ⟨fun _ => by simp, fun hk => by simp at hk⟩
    · simp only [fetchTripQueries] at h
      injection h with h
      subst h
      fin_cases hq; exact ⟨fun _ => by simp, fun hk => by simp at hk⟩
    · cases uuidOk <;> cases existsRemotely <;>
        simp only [saveStopQueries] at h <;>
        injection h with h <;> subst h <;>
        simp_all <;>
        rcases hq with rfl | rfl <;>
        exact ⟨fun hk => by simp_all, fun hk => by simp_all⟩
    · simp only [deleteStopQueries] at h
      injection h with h
      subst h
      fin_cases hq; exact ⟨fun _ => by simp, fun hk => by simp at hk⟩
    · simp only [reorderStopsQueries] at h
      injection h with h
      subst h
      obtain ⟨sid, hsid, rfl⟩ := List.mem_map.mp hq
      exact ⟨fun _ => by simp, fun hk => by simp at hk⟩
    · simp only [completeStopQueries] at h
      injection h with h
      subst h
      fin_cases hq; exact ⟨fun _ => by simp, fun hk => by simp at hk⟩

/-- Witness: the tenant filter of a concrete reorder update, the
payload tenant of a concrete insert, and the no-session error of a
concrete fetch. -/
theorem tenant_scoping_all_ops_witness :
    (("tenant_id", "t1") ∈
      ({ table := "stops", kind := .update
         eqFilters := [("id", "s1"), ("tenant_id", "t1"), ("trip_id", "trip1")]
         payloadTenant := none } : RemoteQuery).eqFilters)
    ∧ ({ table := "stops", kind := .insert
         eqFilters := [], payloadTenant := some "t1" } : RemoteQuery).payloadTenant =
        some "t1"
    ∧ fetchTripStopsQueries (getTenantId none (fun _ => some "t1")) "trip1" =
        .error noTenantError := by
  refine ⟨?_, ?_, ?_⟩
  · exact (tenant_scoping_all_ops.2.2 "t1" "trip1" "s1" ["s1"] false false _
      (Or.inr (Or.inr (Or.inr (Or.inr (Or.inl rfl)))))
      _ (by simp)).1 (by simp)
  · exact (tenant_scoping_all_ops.2.2 "t1" "trip1" "901" ["s1"] false false _
      (Or.inr (Or.inr (Or.inl rfl)))
      _ (by simp)).2 rfl
  · exact (tenant_scoping_all_ops.2.1 none (fun _ => some "t1") rfl
      "trip1" "s1" [] false false).1

/-- Swapping two adjacent entries is a permutation. -/
theorem adjacent_swap_perm {l : List UIStop} {i : Nat} {a b : UIStop}
    (ha : l[i]? = some a) (hb : l[i+1]? = some b) :
    ((l.set i b).set (i+1) a).Perm l := by
  induction l generalizing i with
  | nil => simp at ha
  | cons x xs ih =>
    cases i with
    | zero =>
      cases xs with
      | nil => simp at hb
      | cons y ys =>
        simp only [List.getElem?_cons_zero, Option.some_inj] at ha
        have hy : y = b := by
          simpa using hb
        subst ha hy
        simpa using List.Perm.swap x y ys
    | succ i =>
      simp only [List.getElem?_cons_succ] at ha hb
      simpa using List.Perm.cons x (ih ha hb)

/-- With no failed update, reorderStops succeeds. -/
theorem reorderOk_nil (uuidValid : String → Bool) (stopIds : List String)
    (hv : ∀ sid ∈ stopIds, uuidValid sid = true) :
    reorderOk uuidValid stopIds [] = true := by
  simp only [reorderOk, List.all_eq_true]
  intro sid hsid
  simp [hv sid hsid]

/-- A reorder batch rewrites stop_order values only, never row ids. -/
theorem applyReorderWith_map_id (uuidValid : String → Bool)
    (rows : List StopRow) (stopIds failed : List String) :
    (applyReorderWith uuidValid rows stopIds failed).map (·.id) =
      rows.map (·.id) := by
  unfold applyReorderWith
  rw [List.map_map]
  apply List.map_congr_left
  intro r _
  by_cases h : r.id ∈ stopIds ∧ uuidValid r.id = true ∧ r.id ∉ failed <;> simp [h]

/-- When every row id occurs, with a valid uuid, in a batch with no
failed update, each row ends up with the batch position of its id. -/
theorem applyReorder_orders (uuidValid : String → Bool) (rows : List StopRow)
    (stopIds : List String) (h : ∀ r ∈ rows, r.id ∈ stopIds)
    (hv : ∀ r ∈ rows, uuidValid r.id = true) :
    (applyReorderWith uuidValid rows stopIds []).map (·.stop_order) =
      rows.map fun r => stopIds.indexOf r.id := by
  unfold applyReorderWith
  rw [List.map_map]
  apply List.map_congr_left
  intro r hr
  simp [h r hr, hv r hr]

/-- In a duplicate-free list, mapping every element to its own index
enumerates 0, 1, ..., n-1. -/
theorem map_indexOf_self {ids : List String} (h : ids.Nodup) :
    (ids.map fun x => ids.indexOf x) = List.range ids.length := by
  induction ids with
  | nil => simp
  | cons a l ih =>
    rw [List.nodup_cons] at h
    rw [List.map_cons, List.indexOf_cons_self]
    have hcong : (l.map fun x => (a :: l).indexOf x) =
        (l.map fun x => l.indexOf x).map (· + 1) := by
      rw [List.map_map]
      apply List.map_congr_left
      intro x hx
      have hne : a ≠ x := fun hc => h.1 (hc ▸ hx)
      simp [List.indexOf_cons_ne _ hne]
    rw [hcong, ih h.2, List.length_cons, List.range_succ_eq_map]

/-- A fully successful reorder batch whose ids are exactly the row ids
(duplicate-free) renumbers the persisted stop_order values to exactly
0, 1, ..., n-1. -/
theorem orders_perm_range {uuidValid : String → Bool} {rows : List StopRow}
    {stopIds : List String}
    (hperm : (rows.map (·.id)).Perm stopIds) (hnd : stopIds.Nodup)
    (hv : ∀ sid ∈ stopIds, uuidValid sid = true) :
    ((applyReorderWith uuidValid rows stopIds []).map (·.stop_order)).Perm
      (List.range rows.length) := by
  have hmem : ∀ r ∈ rows, r.id ∈ stopIds := fun r hr =>
    hperm.mem_iff.mp (List.mem_map_of_mem _ hr)
  rw [applyReorder_orders uuidValid rows stopIds hmem
    (fun r hr => hv r.id (hmem r hr))]
  have h1 : (rows.map fun r => stopIds.indexOf r.id) =
      (rows.map (·.id)).map fun x => stopIds.indexOf x := by
    rw [List.map_map]
    rfl
  rw [h1]
  have h2 := hperm.map fun x => stopIds.indexOf x
  rw [map_indexOf_self hnd] at h2
  have hlen : stopIds.length = rows.length := by
    rw [← hperm.length_eq, List.length_map]
  rw [hlen] at h2
  exact h2

/-- The loaded-trip well-formedness the screen starts from: the
persisted rows are exactly the local stops (same ids, duplicate-free). -/
def SyncedIds (st : TripSyncState) : Prop :=
  (st.remote.map (·.id)).Perm (st.stops.map (·.id)) ∧
    (st.stops.map (·.id)).Nodup

/-- Every local stop id is a well-formed uuid — true of a loaded trip,
whose ids all come from the database, and false of the placeholder id a
pending addStop leaves behind. -/
def ValidIds (uuidValid : String → Bool) (st : TripSyncState) : Prop :=
  ∀ sid ∈ st.stops.map (·.id), uuidValid sid = true

/-- The persisted stop_order values are exactly the contiguous
zero-based permutation 0, 1, ..., n-1 of the row count. -/
def ContiguousOrders (st : TripSyncState) : Prop :=
  ((st.remote.map (·.stop_order))).Perm (List.range st.remote.length)

/-- Operations that never create a stop (moves and deletes). -/
def isStructural : TripOp → Bool
  | .add _ _ _ => false
  | _ => true

/-- An accepted move keeps the local stop list a permutation of
itself. -/
theorem movePlan_perm {stops newStops : List UIStop} {i : Nat} {d : Dir}
    (h : movePlan stops i d = some newStops) : newStops.Perm stops := by
  cases d
  case up =>
    obtain ⟨moving, target, hi0, hm, ht, _, _, _, hr⟩ := movePlan_up_some h
    subst hr
    obtain ⟨j, hj⟩ : ∃ j, i = j + 1 := ⟨i - 1, by omega⟩
    subst hj
    have hcomm : ((stops.set (j+1) target).set j moving) =
        ((stops.set j moving).set (j+1) target) :=
      List.set_comm _ _ _ (by omega)
    have := adjacent_swap_perm (l := stops) (i := j)
      (a := target) (b := moving) (by simpa using ht) hm
    simpa [hcomm] using this
  case down =>
    obtain ⟨moving, target, hm, ht, _, _, _, hr⟩ := movePlan_down_some h
    subst hr
    exact adjacent_swap_perm hm ht

/-- One structural operation with no injected remote failure preserves
the synced-ids well-formedness, the validity of the local ids, and
(re)establishes contiguous persisted orders. -/
theorem stepOp_structural_preserves (uuidValid : String → Bool)
    (st : TripSyncState) (op : TripOp)
    (hop : isStructural op = true)
    (hsync : SyncedIds st) (hvalid : ValidIds uuidValid st)
    (hcont : ContiguousOrders st) :
    SyncedIds (stepOp uuidValid st op) ∧
      ValidIds uuidValid (stepOp uuidValid st op) ∧
      ContiguousOrders (stepOp uuidValid st op) := by
  cases op with
  | add a p d => simp [isStructural] at hop
  | move i d =>
    show SyncedIds (moveStopSync uuidValid st i d []).1 ∧
      ValidIds uuidValid (moveStopSync uuidValid st i d []).1 ∧
      ContiguousOrders (moveStopSync uuidValid st i d []).1
    unfold moveStopSync
    rcases hplan : movePlan st.stops i d with _ | newStops
    · exact ⟨hsync, hvalid, hcont⟩
    dsimp only
    have hperm : newStops.Perm st.stops := movePlan_perm hplan
    have hidperm : (newStops.map (·.id)).Perm (st.stops.map (·.id)) := hperm.map _
    have hvalid' : ∀ sid ∈ newStops.map (·.id), uuidValid sid = true :=
      fun sid hsid => hvalid sid (hidperm.mem_iff.mp hsid)
    rw [if_pos (reorderOk_nil uuidValid _ hvalid')]
    dsimp only
    have hnd : (newStops.map (·.id)).Nodup := (hidperm.nodup_iff).mpr hsync.2
    have hrowperm : (st.remote.map (·.id)).Perm (newStops.map (·.id)) :=
      hsync.1.trans hidperm.symm
    refine ⟨⟨by rw [applyReorderWith_map_id]; exact hrowperm, hnd⟩, hvalid', ?_⟩
    show ((applyReorderWith uuidValid st.remote (newStops.map (·.id)) []).map
        (·.stop_order)).Perm _
    have := orders_perm_range hrowperm hnd hvalid'
    have hlen : (applyReorderWith uuidValid st.remote
        (newStops.map (·.id)) []).length = st.remote.length := by
      unfold applyReorderWith
      rw [List.length_map]
    rw [hlen]
    exact this
  | del sid =>
    show SyncedIds (handleDelete uuidValid st sid []).1 ∧
      ValidIds uuidValid (handleDelete uuidValid st sid []).1 ∧
      ContiguousOrders (handleDelete uuidValid st sid []).1
    unfold handleDelete
    split_ifs with hle
    · exact ⟨hsync, hvalid, hcont⟩
    dsimp only
    have hmapfil : ((st.remote.filter fun r => r.id ≠ sid).map (·.id)) =
        ((st.remote.map (·.id)).filter fun x => x ≠ sid) :=
      (List.filter_map (p := fun x => decide (x ≠ sid))
        (fun r : StopRow => r.id) st.remote).symm
    have hmapfil2 : ((st.stops.filter fun s => s.id ≠ sid).map (·.id)) =
        ((st.stops.map (·.id)).filter fun x => x ≠ sid) :=
      (List.filter_map (p := fun x => decide (x ≠ sid))
        (fun s : UIStop => s.id) st.stops).symm
    have hvalid' : ∀ x ∈ ((st.stops.filter fun s => s.id ≠ sid).map (·.id)),
        uuidValid x = true := by
      intro x hx
      rw [hmapfil2] at hx
      exact hvalid x (List.mem_of_mem_filter hx)
    rw [if_pos (reorderOk_nil uuidValid _ hvalid')]
    dsimp only
    have hfilperm : (((st.remote.filter fun r => r.id ≠ sid)).map (·.id)).Perm
        (((st.stops.filter fun s => s.id ≠ sid)).map (·.id)) := by
      rw [hmapfil, hmapfil2]
      exact hsync.1.filter _
    have hnd : (((st.stops.filter fun s => s.id ≠ sid)).map (·.id)).Nodup := by
      rw [hmapfil2]
      exact hsync.2.filter _
    refine ⟨⟨by rw [applyReorderWith_map_id]; exact hfilperm, hnd⟩, hvalid', ?_⟩
    show ((applyReorderWith uuidValid (st.remote.filter fun r => r.id ≠ sid)
        ((st.stops.filter fun s => s.id ≠ sid).map (·.id)) []).map
        (·.stop_order)).Perm _
    have := orders_perm_range hfilperm hnd hvalid'
    have hlen : (applyReorderWith uuidValid
        (st.remote.filter fun r => r.id ≠ sid)
        ((st.stops.filter fun s => s.id ≠ sid).map (·.id)) []).length =
        (st.remote.filter fun r => r.id ≠ sid).length := by
      unfold applyReorderWith
      rw [List.length_map]
    rw [hlen]
    exact this

/-- Uuid validity for the counterexample runs: every id except the
Date.now placeholder "901" is a database uuid. -/
def uuidValidCE : String → Bool := fun s => decide (¬ s = "901")

/-- C1 counterexample: starting from a synced, contiguous 4-stop trip,
an insert after stop 0 followed by a move.  The insert persists a row
(dbId "db1", stop_order 1) and renumbers the valid-id rows, but its
reorder batch carries the non-uuid placeholder "901", errors against
the UUID id column, and rolls the local list back — leaving the local
list without the new row's id.  The following move then renumbers only
the four local ids: the persisted orders end as 0, 2, 1, 3 and the
stale 1 on the inserted row — a duplicate 1 and no 4 among 5 rows —
not the contiguous permutation the claim asserts after every
operation. -/
theorem contiguity_counterexample :
    ¬ ContiguousOrders
      (runOps uuidValidCE stRB [.add 0 "901" "db1", .move 1 .down]) := by
  unfold ContiguousOrders
  decide

/-- C1 amended: for every sequence of remove and move operations
(no inserts) starting from a loaded trip whose persisted rows carry
exactly the local duplicate-free, database-issued stop ids with
contiguous orders, after each operation the persisted stop_order
values are exactly the permutation 0, 1, ..., n-1 of the row count;
sequences containing an insert can break this because the inserted
stop's placeholder id is never reconciled with its database row id,
so the insert leaves an extra persisted row whose order the following
renumberings never rewrite. -/
theorem contiguity_structural_ops (uuidValid : String → Bool)
    (st : TripSyncState) (ops : List TripOp)
    (hsync : SyncedIds st) (hvalid : ValidIds uuidValid st)
    (hcont : ContiguousOrders st)
    (hops : ∀ op ∈ ops, isStructural op = true) :
    ∀ n, SyncedIds (runOps uuidValid st (ops.take n)) ∧
      ContiguousOrders (runOps uuidValid st (ops.take n)) := by
  induction ops generalizing st with
  | nil => intro n; simpa [runOps] using ⟨hsync, hcont⟩
  | cons op rest ih =>
    intro n
    cases n with
    | zero => simpa [runOps] using ⟨hsync, hcont⟩
    | succ n =>
      rw [List.take_succ_cons]
      show SyncedIds (runOps uuidValid (stepOp uuidValid st op) (rest.take n)) ∧ _
      have hstep := stepOp_structural_preserves uuidValid st op
        (hops op (List.mem_cons_self op rest)) hsync hvalid hcont
      exact ih (stepOp uuidValid st op) hstep.1 hstep.2.1 hstep.2.2
        (fun o ho => hops o (List.mem_cons_of_mem op ho)) n

/-- Witness: the amended contiguity invariant on a concrete synced trip
across a concrete delete-then-move run. -/
theorem contiguity_structural_ops_witness :
    SyncedIds (runOps allUuid stRB ([.del "b", .move 1 .down].take 2)) ∧
      ContiguousOrders (runOps allUuid stRB ([.del "b", .move 1 .down].take 2)) :=
  contiguity_structural_ops allUuid stRB [.del "b", .move 1 .down]
    ⟨by decide, by decide⟩ (fun sid _ => rfl)
    (by unfold ContiguousOrders; decide) (by decide) 2

/-- C8 counterexample: on a persisted trip whose last stop is the
reposition stop, addStop invoked with the last index is neither silent
nor a no-op: an error alert is surfaced (the reorder batch carries the
non-uuid placeholder and fails) and the stops table gains a persisted
row with stop_order 4 — beyond the reposition stop's order 3 — while
the local list is only restored by the generic rollback, not by any
structural guard. -/
theorem addStop_counterexample :
    (addStopSync uuidValidCE stRB 3 "901" "db1" []).2.isSome = true
    ∧ (addStopSync uuidValidCE stRB 3 "901" "db1" []).1.remote ≠ stRB.remote
    ∧ ({ id := "db1", stop_order := 4 } : StopRow) ∈
        (addStopSync uuidValidCE stRB 3 "901" "db1" []).1.remote := by
  refine ⟨by rfl, by decide, by decide⟩

/-- C8 amended: addStop enforces no structural guard at any position:
it splices the new stop in locally at afterIndex + 1 and persists a
database row with stop_order afterIndex + 1 — even past the reposition
stop.  On a persisted trip its reorder batch always carries the
non-uuid placeholder id and therefore fails, so the call always ends
with the local list restored to the pre-operation snapshot and a
user-visible error — at boundary and interior positions alike — while
the inserted row stays persisted. -/
theorem addStop_unguarded (uuidValid : String → Bool) (st : TripSyncState)
    (a : Nat) (pid did : String) (failed : List String)
    (hpid : uuidValid pid = false) :
    (addStopSync uuidValid st a pid did failed).1.stops = st.stops
    ∧ (addStopSync uuidValid st a pid did failed).2.isSome = true
    ∧ (addStopSync uuidValid st a pid did failed).1.remote.length =
        st.remote.length + 1
    ∧ (uuidValid did = true → did ∉ st.stops.map (·.id) →
        ({ id := did, stop_order := a + 1 } : StopRow) ∈
          (addStopSync uuidValid st a pid did failed).1.remote) := by
  have hmem : pid ∈ (spliceInsert st.stops (a + 1) (mkNewStop pid)).map (·.id) := by
    unfold spliceInsert mkNewStop
    simp
  have hfail : reorderOk uuidValid
      ((spliceInsert st.stops (a + 1) (mkNewStop pid)).map (·.id)) failed =
        false := by
    rw [Bool.eq_false_iff]
    intro hok
    unfold reorderOk at hok
    have := List.all_eq_true.mp hok pid hmem
    rw [hpid] at this
    simp at this
  unfold addStopSync
  dsimp only
  rw [if_neg (by simp [hfail])]
  dsimp only
  refine ⟨rfl, rfl, ?_, fun hdid hfresh => ?_⟩
  · unfold applyReorderWith
    rw [List.length_map, List.length_append]
    rfl
  · have hne : did ≠ pid := by
      intro hc
      rw [hc, hpid] at hdid
      simp at hdid
    have hnotin : did ∉ (spliceInsert st.stops (a + 1) (mkNewStop pid)).map (·.id) := by
      intro hc
      obtain ⟨s, hsmem, hsid⟩ := List.mem_map.mp hc
      unfold spliceInsert at hsmem
      rcases List.mem_append.mp hsmem with hs | hs
      · rcases List.mem_append.mp hs with hs2 | hs2
        · apply hfresh
          rw [← hsid]
          exact List.mem_map_of_mem _ (List.mem_of_mem_take hs2)
        · have hspid : s = mkNewStop pid := by simpa using hs2
          apply hne
          rw [← hsid, hspid]
          rfl
      · apply hfresh
        rw [← hsid]
        exact List.mem_map_of_mem _ (List.mem_of_mem_drop hs)
    have hrowmem : ({ id := did, stop_order := a + 1 } : StopRow) ∈
        st.remote ++ [{ id := did, stop_order := a + 1 }] := by
      simp
    unfold applyReorderWith
    rw [List.mem_map]
    exact ⟨{ id := did, stop_order := a + 1 }, hrowmem,
      if_neg (fun hc => hnotin hc.1)⟩

/-- Witness: on a concrete persisted 4-stop trip, adding at an interior
position (after stop 0) also reverts the local list with an error while
the database keeps the new row at order 1. -/
theorem addStop_unguarded_witness :
    (addStopSync uuidValidCE stRB 0 "901" "db1" []).1.stops = stRB.stops
    ∧ (addStopSync uuidValidCE stRB 0 "901" "db1" []).2.isSome = true
    ∧ (addStopSync uuidValidCE stRB 0 "901" "db1" []).1.remote.length =
        stRB.remote.length + 1
    ∧ ({ id := "db1", stop_order := 1 } : StopRow) ∈
        (addStopSync uuidValidCE stRB 0 "901" "db1" []).1.remote := by
  have h := addStop_unguarded uuidValidCE stRB 0 "901" "db1" [] (by decide)
  exact ⟨h.1, h.2.1, h.2.2.1, h.2.2.2 (by decide) (by decide)⟩

end Theorems

end TripTracker
